/-
Verification of the BernieFM playlist/streaming subsystem
(src/bernie-radio-stream/app.py and src/bernie-radio-stream/streamer.py).

The Python code is shallowly embedded: the SQLAlchemy store becomes an
explicit `DB` value (a list of songs and a list of playlist entries, in
row-insertion order, which is the order unordered SQLite queries return
rows in), endpoint handlers become state-passing functions, and
`random.shuffle` becomes an explicit `shuffle` parameter (theorems that
need it assume the parameter permutes its input).  Python string helpers
(`str.split`, `str.replace`, `str.strip`, `urllib.parse.unquote`, ...)
are modelled character-list-wise with their Python semantics; `unquote`
is modelled byte-as-char, which agrees with Python on ASCII-range
escapes (the only ones occurring in this catalog).
-/
import Mathlib

/-! ## Python string primitives, modelled on `List Char` -/

/-- Value of a hex digit, as used by `urllib.parse.unquote`. -/
def hexVal (c : Char) : Option Nat :=
  if '0' ≤ c ∧ c ≤ '9' then some (c.toNat - '0'.toNat)
  else if 'a' ≤ c ∧ c ≤ 'f' then some (c.toNat - 'a'.toNat + 10)
  else if 'A' ≤ c ∧ c ≤ 'F' then some (c.toNat - 'A'.toNat + 10)
  else none

/-- `urllib.parse.unquote` on the character level: a `%` followed by two
hex digits decodes to the corresponding byte (taken as a character,
faithful for the ASCII range used by this catalog); anything else is
kept verbatim, as Python does for malformed escapes. -/
def unquoteChars : List Char → List Char
  | [] => []
  | '%' :: a :: b :: rest =>
    match hexVal a, hexVal b with
    | some x, some y => Char.ofNat (16 * x + y) :: unquoteChars rest
    | _, _ => '%' :: unquoteChars (a :: b :: rest)
  | c :: rest => c :: unquoteChars rest

/-- `urllib.parse.unquote` on strings. -/
def pyUnquote (s : String) : String := String.mk (unquoteChars s.data)

/-- Python `str.split(sep)` for a one-character separator: keeps empty
pieces, and `"".split(sep) == [""]`. -/
def splitOnChar (sep : Char) : List Char → List (List Char)
  | [] => [[]]
  | c :: rest =>
    let r := splitOnChar sep rest
    if c = sep then [] :: r
    else
      match r with
      | h :: t => (c :: h) :: t
      | [] => [[c]]

/-- Python `s.split(sep)` (single-character separator) on strings. -/
def pySplit (s : String) (sep : Char) : List String :=
  (splitOnChar sep s.data).map String.mk

/-- Drop `pat` from the front of a character list, if it is a prefix. -/
def dropPrefixChars : List Char → List Char → Option (List Char)
  | [], s => some s
  | _ :: _, [] => none
  | p :: ps, c :: s => if c = p then dropPrefixChars ps s else none

/-- Python `pat in s` substring test, for a non-empty pattern
`p0 :: ps`. -/
def containsPat (p0 : Char) (ps : List Char) : List Char → Bool
  | [] => false
  | c :: rest =>
    ((if c = p0 then (dropPrefixChars ps rest).isSome else false)
      || containsPat p0 ps rest)

/-- Python `s.replace(pat, rep)` for a non-empty pattern `p0 :: ps`:
left-to-right, non-overlapping.  The `fuel` argument makes the
recursion structural; it only ever shrinks the remaining input, so any
fuel at least the input length (as supplied by `replacePat`) yields the
replace semantics. -/
def replacePatAux (p0 : Char) (ps rep : List Char) : Nat → List Char → List Char
  | _, [] => []
  | 0, s => s
  | fuel + 1, c :: rest =>
    if c = p0 then
      match dropPrefixChars ps rest with
      | some rem => rep ++ replacePatAux p0 ps rep fuel rem
      | none => c :: replacePatAux p0 ps rep fuel rest
    else c :: replacePatAux p0 ps rep fuel rest

/-- Python `s.replace(pat, rep)` on character lists. -/
def replacePat (p0 : Char) (ps rep s : List Char) : List Char :=
  replacePatAux p0 ps rep s.length s

/-- Python `pat in s` on strings (`"" in s` is `True`). -/
def pyContains (s pat : String) : Bool :=
  match pat.data with
  | [] => true
  | p :: ps => containsPat p ps s.data

/-- Python `s.replace(pat, rep)` on strings (only used with non-empty
patterns; an empty pattern is treated as a no-op here). -/
def pyReplace (s pat rep : String) : String :=
  match pat.data with
  | [] => s
  | p :: ps => String.mk (replacePat p ps rep.data s.data)

/-- Python `s.strip()`: remove leading and trailing whitespace. -/
def pyStrip (s : String) : String :=
  String.mk (((s.data.dropWhile Char.isWhitespace).reverse.dropWhile Char.isWhitespace).reverse)

/-- Python `s.lower()` (ASCII folding, enough for this catalog). -/
def pyLower (s : String) : String := String.mk (s.data.map Char.toLower)

/-- Python `s.isdigit()`: non-empty and all digits. -/
def pyIsDigit (s : String) : Bool := !s.data.isEmpty && s.data.all Char.isDigit

/-! ## Catalog derivation (`app.py` lines 85–199) -/

/-- `get_album_from_path`: second-to-last path segment with `%20`
replaced by spaces, or `"Unknown Album"` when there is no such segment
(the `IndexError` branch). -/
def get_album_from_path (song_path : String) : String :=
  let parts := pySplit song_path '/'
  if h : parts.length ≥ 2 then
    pyReplace (parts.get ⟨parts.length - 2, by omega⟩) "%20" " "
  else "Unknown Album"

/-- The `album_art_map` dictionary of `get_album_art_url`. -/
def album_art_map : List (String × String) :=
  [("Driven By Desire", "Driven%20by%20Desire.jpg"),
   ("Chiaro Destino mp3 version", "Chiaro%20Destino.jpg"),
   ("Random mp3s", "All%20or%20Nothing.jpg"),
   ("Here_There_and_Everywhere", "Here%20There%20and%20Everywhere.jpg"),
   ("Julian", "Julian.jpg"),
   ("Hideaway Tales", "Hideaway%20Tales.jpg"),
   ("Life As We Know It", "Life%20As%20We%20Know%20It.jpg"),
   ("Long Before I Knew You mp3s", "Long%20Before%20I%20Knew%20You.png"),
   ("Make Some Sense of This", "Make%20Some%20Sense%20of%20This.jpg"),
   ("More To This Life mp3 version", "More%20To%20This%20Life.jpg"),
   ("Mystery of Love", "Mystery%20of%20Love.jpg"),
   ("One Bright Moment", "One%20Bright%20Moment.jpg"),
   ("Remnants mp3 version", "Remnants.jpg"),
   ("The World Around Me", "This%20Is%20What%20I%20See.jpg"),
   ("Weddington Street", "Page%20One.jpg"),
   ("Winnie\x27s Song", "Winnie%27s%20Song.jpg"),
   ("Affair_mp3Version", "Affair%20of%20the%20Heart.jpg"),
   ("All in Your Mind", "All%20in%20Your%20Mind.jpg"),
   ("Miracle River", "Miracle%20River.jpg")]

/-- `get_album_art_url`: dictionary lookup with a fixed fallback. -/
def get_album_art_url (album_name : String) : String :=
  let base_url := "https://web-assets-acwebdev.s3.amazonaws.com/Bernie%20Chiaravalle/cd%20covers/"
  match album_art_map.find? (fun kv => kv.1 == album_name) with
  | some kv => base_url ++ kv.2
  | none => base_url ++ "All%20or%20Nothing.jpg"

/-- The decoded last path segment, `unquote(file_path.split('/')[-1])`. -/
def decodedFilename (file_path : String) : String :=
  pyUnquote ((pySplit file_path '/').getLastD "")

/-- `get_clean_title` (`app.py` lines 119–145), line by line. -/
def get_clean_title (file_path : String) : String :=
  let filename := pyUnquote ((pySplit file_path '/').getLastD "")
  let is_random_mp3 := pyContains file_path "/Random%20mp3s/"
  let title :=
    if is_random_mp3 then filename
    else String.intercalate "." ((pySplit filename '.').dropLast)
  let parts := pySplit title ' '
  let title :=
    if parts.length > 1 && pyIsDigit (parts.headD "") && (parts.headD "").length ≤ 2 then
      String.intercalate " " parts.tail
    else title
  let title := pyStrip (pyReplace (pyReplace title "_" " ") "-" " ")
  if pyContains (pyLower (pyUnquote ((pySplit file_path '/').getLastD ""))) "unreleased" then
    pyStrip (pyReplace title "unreleased" "")
  else title

/-! Named phases of the title derivation, following the clauses of the
spec sentence: initial title (extension kept or stripped), track-number
removal, underscore/hyphen flattening, conditional `unreleased`
removal. -/

/-- Extension stripping, `".".join(filename.split('.')[:-1])`. -/
def stripExtension (filename : String) : String :=
  String.intercalate "." ((pySplit filename '.').dropLast)

/-- Removal of a leading one- or two-digit track number (space
separated, with at least one further word, as the code requires). -/
def stripLeadingTrackNumber (title : String) : String :=
  let parts := pySplit title ' '
  if parts.length > 1 && pyIsDigit (parts.headD "") && (parts.headD "").length ≤ 2 then
    String.intercalate " " parts.tail
  else title

/-- Underscores and hyphens become spaces; ends trimmed. -/
def flattenSeparators (title : String) : String :=
  pyStrip (pyReplace (pyReplace title "_" " ") "-" " ")

/-- The `unreleased` marker is removed exactly when it occurs
(case-insensitively) in the decoded original filename. -/
def removeUnreleasedMarker (file_path title : String) : String :=
  if pyContains (pyLower (decodedFilename file_path)) "unreleased" then
    pyStrip (pyReplace title "unreleased" "")
  else title

/-! ## The fixed source catalog (`get_song_data_from_source`) -/

/-- The `audio_files` list of `get_song_data_from_source`. -/
def audio_files : List String :=
  ["https://web-assets-acwebdev.s3.amazonaws.com/Bernie%20Chiaravalle/Driven%20By%20Desire/01%20Miss%20That%20Train%20%28Catch%20That%20Dream%29.m4a",
   "https://web-assets-acwebdev.s3.amazonaws.com/Bernie%20Chiaravalle/Driven%20By%20Desire/02%20Writing%20a%20Romance.m4a",
   "https://web-assets-acwebdev.s3.amazonaws.com/Bernie%20Chiaravalle/Driven%20By%20Desire/03%20Man%20Who%20Would%20Be%20King.m4a",
   "https://web-assets-acwebdev.s3.amazonaws.com/Bernie%20Chiaravalle/Driven%20By%20Desire/04%20Down%20Down%20Down.m4a",
   "https://web-assets-acwebdev.s3.amazonaws.com/Bernie%20Chiaravalle/Driven%20By%20Desire/05%20It%20Was%20Only%20Love.m4a",
   "https://web-assets-acwebdev.s3.amazonaws.com/Bernie%20Chiaravalle/Driven%20By%20Desire/06%20All%20Things%20Considered.m4a",
   "https://web-assets-acwebdev.s3.amazonaws.com/Bernie%20Chiaravalle/Driven%20By%20Desire/07%20Not%20Without%20a%20Fight.m4a",
   "https://web-assets-acwebdev.s3.amazonaws.com/Bernie%20Chiaravalle/Driven%20By%20Desire/08%20Someone%20to%20Hold.m4a",
   "https://web-assets-acwebdev.s3.amazonaws.com/Bernie%20Chiaravalle/Driven%20By%20Desire/09%20Let%20Me%20Be%20the%20One.m4a",
   "https://web-assets-acwebdev.s3.amazonaws.com/Bernie%20Chiaravalle/Driven%20By%20Desire/10%20From%20Now%20On.m4a",
   "https://web-assets-acwebdev.s3.amazonaws.com/Bernie%20Chiaravalle/Chiaro%20Destino%20mp3%20version/01%20Things%20We%20Said%20Today.mp3",
   "https://web-assets-acwebdev.s3.amazonaws.com/Bernie%20Chiaravalle/Chiaro%20Destino%20mp3%20version/02%20My%20Back%20Pages.mp3",
   "https://web-assets-acwebdev.s3.amazonaws.com/Bernie%20Chiaravalle/Chiaro%20Destino%20mp3%20version/03%20Isnt%20It%20A%20Pity.mp3",
   "https://web-assets-acwebdev.s3.amazonaws.com/Bernie%20Chiaravalle/Chiaro%20Destino%20mp3%20version/04%20Dino%27s%20Song.mp3",
   "https://web-assets-acwebdev.s3.amazonaws.com/Bernie%20Chiaravalle/Chiaro%20Destino%20mp3%20version/05%20You%27ve%20Got%20To%20Hide%20Your%20Love%20Away.mp3",
   "https://web-assets-acwebdev.s3.amazonaws.com/Bernie%20Chiaravalle/Chiaro%20Destino%20mp3%20version/06%20All%20the%20Children%20Sing.mp3",
   "https://web-assets-acwebdev.s3.amazonaws.com/Bernie%20Chiaravalle/Chiaro%20Destino%20mp3%20version/07%20Four%20Days%20Gone.mp3",
   "https://web-assets-acwebdev.s3.amazonaws.com/Bernie%20Chiaravalle/Chiaro%20Destino%20mp3%20version/08%20Happier%20Than%20the%20Morning%20Sun.mp3",
   "https://web-assets-acwebdev.s3.amazonaws.com/Bernie%20Chiaravalle/Chiaro%20Destino%20mp3%20version/09%20Long%20Long%20Time.mp3",
   "https://web-assets-acwebdev.s3.amazonaws.com/Bernie%20Chiaravalle/Chiaro%20Destino%20mp3%20version/10%20Angel.mp3",
   "https://web-assets-acwebdev.s3.amazonaws.com/Bernie%20Chiaravalle/Chiaro%20Destino%20mp3%20version/11%20Laughing.mp3",
   "https://web-assets-acwebdev.s3.amazonaws.com/Bernie%20Chiaravalle/Chiaro%20Destino%20mp3%20version/12%20I%20Want%20To%20Tell%20You.mp3",
   "https://web-assets-acwebdev.s3.amazonaws.com/Bernie%20Chiaravalle/Chiaro%20Destino%20mp3%20version/13%20Motor%20of%20Love.mp3",
   "https://web-assets-acwebdev.s3.amazonaws.com/Bernie%20Chiaravalle/Chiaro%20Destino%20mp3%20version/14%20Love.mp3",
   "https://web-assets-acwebdev.s3.amazonaws.com/Bernie%20Chiaravalle/Random%20mp3s/a%20loss%20for%20words_march5-unreleased.mp3",
   "https://web-assets-acwebdev.s3.amazonaws.com/Bernie%20Chiaravalle/Random%20mp3s/allnight_watchman_nov25mix-unreleased.mp3",
   "https://web-assets-acwebdev.s3.amazonaws.com/Bernie%20Chiaravalle/Random%20mp3s/BegYourForgiveness_march27mix-unreleased.mp3",
   "https://web-assets-acwebdev.s3.amazonaws.com/Bernie%20Chiaravalle/Random%20mp3s/ByHeart_RealLove-unreleased.mp3",
   "https://web-assets-acwebdev.s3.amazonaws.com/Bernie%20Chiaravalle/Random%20mp3s/Don%27t_Make_Promise_jan13mix-unreleased.mp3",
   "https://web-assets-acwebdev.s3.amazonaws.com/Bernie%20Chiaravalle/Random%20mp3s/I%27ll_Get_Back_To_You_april7mix_m-unreleased.mp3",
   "https://web-assets-acwebdev.s3.amazonaws.com/Bernie%20Chiaravalle/Random%20mp3s/KeepThisTrain-unreleased.mp3",
   "https://web-assets-acwebdev.s3.amazonaws.com/Bernie%20Chiaravalle/Random%20mp3s/looking_for_love2024_dec11mix-unreleased.mp3",
   "https://web-assets-acwebdev.s3.amazonaws.com/Bernie%20Chiaravalle/Random%20mp3s/obsession_blues_bc_april7mox-unreleased.mp3",
   "https://web-assets-acwebdev.s3.amazonaws.com/Bernie%20Chiaravalle/Random%20mp3s/What_We%27ve_Got-unreleased.mp3",
   "https://web-assets-acwebdev.s3.amazonaws.com/Bernie%20Chiaravalle/Random%20mp3s/whenitcomestolovesept24_emastered-unreleased.mp3"]

/-! ## Data model -/

/-- A row of the `songs` table. -/
structure Song where
  id : Nat
  title : String
  artist : String
  album : String
  file_path : String
  album_art_url : String
  unreleased : Bool
deriving DecidableEq

/-- A row of the `playlist` table.  `played_at` holds an abstract clock
value (`datetime.utcnow()` is passed in as a `Nat` parameter). -/
structure PlaylistEntry where
  song_id : Nat
  play_order : Nat
  played_at : Option Nat
  is_playing : Bool
deriving DecidableEq

/-- The whole store, rows in insertion order. -/
structure DB where
  songs : List Song
  playlist : List PlaylistEntry
deriving DecidableEq

/-- One Song row as built by `get_song_data_from_source` for a source
path, with `id` assigned at insertion time (SQLite autoincrement). -/
def songFromPath (path : String) (id : Nat) : Song :=
  let album := get_album_from_path path
  let is_unreleased := pyContains (pyLower path) "unreleased"
  { id := id
    title := get_clean_title path
    artist := "Bernie Chiaravalle"
    album := if is_unreleased then "UNRELEASED" else album
    file_path := path
    album_art_url := get_album_art_url album
    unreleased := is_unreleased }

/-! ## Small query primitives over row lists -/

/-- `query(...).filter(p).first()` returning the row and its index. -/
def findIdxEntry {α : Type} (p : α → Bool) : List α → Option (Nat × α)
  | [] => none
  | x :: rest =>
    if p x then some (0, x)
    else (findIdxEntry p rest).map (fun ix => (ix.1 + 1, ix.2))

/-- In-place mutation of the row at index `i` (ORM attribute
assignment). -/
def updAt {α : Type} : List α → Nat → (α → α) → List α
  | [], _, _ => []
  | x :: rest, 0, f => f x :: rest
  | x :: rest, n + 1, f => x :: updAt rest n f

/-- `order_by(PlaylistEntry.play_order)`. -/
def sortByOrder (l : List PlaylistEntry) : List PlaylistEntry :=
  l.insertionSort (fun a b => a.play_order ≤ b.play_order)

/-! ## Playlist logic (`app.py` lines 202–378) -/

/-- The `for i, song_id in enumerate(song_ids)` loop body of
`generate_new_playlist`. -/
def buildEntries : Nat → List Nat → List PlaylistEntry
  | _, [] => []
  | i, sid :: rest =>
    { song_id := sid, play_order := i, played_at := none, is_playing := false }
      :: buildEntries (i + 1) rest

/-- `if playlist_entries: playlist_entries[0].is_playing = True`. -/
def markFirstPlaying : List PlaylistEntry → List PlaylistEntry
  | [] => []
  | e :: rest => { e with is_playing := true } :: rest

/-- `generate_new_playlist`: delete every playlist row, shuffle the
catalog ids, insert one entry per id with `play_order` equal to its
index, mark the first entry as playing. -/
def generate_new_playlist (shuffle : List Nat → List Nat) (db : DB) : DB :=
  let song_ids := shuffle (db.songs.map (fun s => s.id))
  { db with playlist := markFirstPlaying (buildEntries 0 song_ids) }

/-- The mutation applied to the current row in `advance_to_next_song`. -/
def clearStamp (now : Nat) (e : PlaylistEntry) : PlaylistEntry :=
  { e with is_playing := false, played_at := some now }

/-- The mutation marking a row current. -/
def setPlaying (e : PlaylistEntry) : PlaylistEntry :=
  { e with is_playing := true }

/-- The playlist after the `if current_playing:` block of
`advance_to_next_song`: the first playing row (if any) cleared and
stamped. -/
def clearedPlaylist (now : Nat) (db : DB) : List PlaylistEntry :=
  match findIdxEntry (fun e => e.is_playing) db.playlist with
  | some iv => updAt db.playlist iv.1 (clearStamp now)
  | none => db.playlist

/-- `next_order` as computed by `advance_to_next_song`. -/
def nextOrderOf (db : DB) : Nat :=
  match findIdxEntry (fun e => e.is_playing) db.playlist with
  | some iv => iv.2.play_order + 1
  | none => 0

/-- `POST /next_song` (`advance_to_next_song`).  Returns the new store
and the `song_id` of the row now playing, or `none` for the HTTP 404
(`Could not determine next song`).  In the 404 case the state is the one
committed by the inner regeneration. -/
def advance_to_next_song (shuffle : List Nat → List Nat) (now : Nat) (db : DB) :
    DB × Option Nat :=
  let pl1 := clearedPlaylist now db
  let db1 := { db with playlist := pl1 }
  match findIdxEntry (fun e => e.play_order == nextOrderOf db) pl1 with
  | some jv =>
    ({ db1 with playlist := updAt pl1 jv.1 setPlaying }, some jv.2.song_id)
  | none =>
    let db2 := generate_new_playlist shuffle db1
    match findIdxEntry (fun e => e.play_order == 0) db2.playlist with
    | some jv =>
      ({ db2 with playlist := updAt db2.playlist jv.1 setPlaying }, some jv.2.song_id)
    | none => (db2, none)

/-- `POST /skip` (`skip_song`): unconditional regeneration, then the row
at `play_order` 0 is reported (404 when there is none).  The
`supervisorctl restart` signal has no effect on the store and is not
modelled. -/
def skip_song (shuffle : List Nat → List Nat) (db : DB) : DB × Option Nat :=
  let db1 := generate_new_playlist shuffle db
  match findIdxEntry (fun e => e.play_order == 0) db1.playlist with
  | some jv => (db1, some jv.2.song_id)
  | none => (db1, none)

/-- `POST /play-next/{song_id}` (`queue_specific_song`).  Returns the
new store and the queued `song_id`, or `none` for the two HTTP 404
cases (no current row / target not in the playlist). -/
def queue_specific_song (sid : Nat) (db : DB) : DB × Option Nat :=
  match findIdxEntry (fun e => e.is_playing) db.playlist with
  | none => (db, none)
  | some _cur =>
    match findIdxEntry (fun e => e.song_id == sid) db.playlist with
    | none => (db, none)
    | some kt =>
      let next_order := _cur.2.play_order + 1
      let pl1 :=
        match findIdxEntry (fun e => e.play_order == next_order) db.playlist with
        | some jv => updAt db.playlist jv.1 (fun e => { e with play_order := kt.2.play_order })
        | none => db.playlist
      let pl2 := updAt pl1 kt.1 (fun e => { e with play_order := next_order })
      ({ db with playlist := pl2 }, some sid)

/-- The `upcoming` computation of `get_current_playlist`: the five rows
after the current position, completed by a single wrap-around query from
position 0 when fewer than five remain.  Returns the upcoming rows'
`song_id`s. -/
def upcomingOf (db : DB) (cur : PlaylistEntry) : List Nat :=
  let fwd := (sortByOrder (db.playlist.filter
    (fun e => cur.play_order < e.play_order))).take 5
  let ups :=
    if fwd.length < 5 then
      fwd ++ (sortByOrder db.playlist).take (5 - fwd.length)
    else fwd
  ups.map (fun e => e.song_id)

/-- `GET /playlist` (`get_current_playlist`).  Returns the new store and
either `none` (HTTP 404 `Playlist is empty`) or the now-playing
`song_id` with the upcoming `song_id` list. -/
def get_current_playlist (shuffle : List Nat → List Nat) (db : DB) :
    DB × Option (Nat × List Nat) :=
  match findIdxEntry (fun e => e.is_playing) db.playlist with
  | some iv => (db, some (iv.2.song_id, upcomingOf db iv.2))
  | none =>
    let db1 := generate_new_playlist shuffle db
    match findIdxEntry (fun e => e.is_playing) db1.playlist with
    | some iv => (db1, some (iv.2.song_id, upcomingOf db1 iv.2))
    | none => (db1, none)

/-- `GET /playlist.txt` (`get_playlist_text`).  Returns the new store
and the plain-text body (every entry's track URL joined by newlines);
`none` models the `entry.song` attribute error on a dangling song
reference, which cannot happen on consistent stores. -/
def get_playlist_text (shuffle : List Nat → List Nat) (db : DB) : DB × Option String :=
  let entries := sortByOrder db.playlist
  let st :=
    if entries.isEmpty then
      let d := generate_new_playlist shuffle db
      (d, sortByOrder d.playlist)
    else (db, entries)
  match st.2.mapM (fun e => (st.1.songs.find? (fun s => s.id == e.song_id)).map
      (fun s => s.file_path)) with
  | some urls => (st.1, some (String.intercalate "\n" urls))
  | none => (st.1, none)

/-! ## Startup (`on_startup`, lines 220–240) -/

/-- The per-song body of the population loop: add the song built from
`path` unless a row with the same `file_path` exists, assigning the next
autoincrement id. -/
def addSong (db : DB) (path : String) : DB :=
  if (db.songs.find? (fun s => s.file_path == path)).isSome then db
  else
    { db with songs :=
        db.songs ++ [songFromPath path ((db.songs.map (fun s => s.id)).foldr max 0 + 1)] }

/-- `on_startup`: populate the songs table when empty, then generate a
playlist when the playlist table is empty. -/
def on_startup (shuffle : List Nat → List Nat) (db : DB) : DB :=
  let db1 := if db.songs.length == 0 then audio_files.foldl addSong db else db
  if db1.playlist.length == 0 then generate_new_playlist shuffle db1 else db1

/-! ## Operation alphabet for the invariant claims -/

/-- One serial mutating call against the playlist service. -/
inductive Op where
  | advanceOp (now : Nat)
  | skipOp
  | queueOp (sid : Nat)
deriving DecidableEq

/-- The state part of one operation. -/
def applyOp (shuffle : List Nat → List Nat) (db : DB) : Op → DB
  | Op.advanceOp now => (advance_to_next_song shuffle now db).1
  | Op.skipOp => (skip_song shuffle db).1
  | Op.queueOp sid => (queue_specific_song sid db).1

/-- A serial sequence of operations. -/
def applyOps (shuffle : List Nat → List Nat) (db : DB) (ops : List Op) : DB :=
  ops.foldl (applyOp shuffle) db

/-- Exactly zero or one row is marked playing. -/
def atMostOneCurrent (db : DB) : Prop :=
  db.playlist.countP (fun e => e.is_playing) ≤ 1

/-- The active positions form the contiguous range starting at 0. -/
def contiguousOrders (db : DB) : Prop :=
  (db.playlist.map (fun e => e.play_order)).Perm (List.range db.playlist.length)

instance : DecidablePred atMostOneCurrent := fun db => by
  unfold atMostOneCurrent; infer_instance

instance : DecidablePred contiguousOrders := fun db => by
  unfold contiguousOrders; infer_instance

/-! ## Stream player loop (`streamer.py` lines 49–184)

The loop is embedded as the trace of externally visible calls one
iteration of the `while True` body of `stream_continuously` emits.
`shuffle` abstracts `random.shuffle`, `valid` the per-URL
`validate_song_url` probe, `streamOk` the outcome of
`stream_song_seamlessly`, and `songsOk` whether `GET /songs` succeeds
(when it fails, `get_all_songs` falls back to reading `/playlist` and
probing `/next_song` up to five times; the fallback's happy path is
modelled). -/

/-- An externally visible action of the streamer. -/
inductive StreamEvent where
  | fetchSongs
  | fetchPlaylist
  | advanceCall
  | validateUrl (url : String) (ok : Bool)
  | streamTrack (url : String) (ok : Bool)
  | sleepWait
deriving DecidableEq

/-- Calls emitted by `get_all_songs`: one `GET /songs`, or on its
failure the `/playlist` read followed by five `POST /next_song` +
`GET /playlist` probing rounds. -/
def get_all_songs_events (songsOk : Bool) : List StreamEvent :=
  if songsOk then [StreamEvent.fetchSongs]
  else StreamEvent.fetchSongs :: StreamEvent.fetchPlaylist ::
    (List.replicate 5 [StreamEvent.advanceCall, StreamEvent.fetchPlaylist]).flatten

/-- `create_shuffled_playlist`: fetch the pool, validate every URL,
shuffle the survivors.  Returns the emitted events and the playlist. -/
def create_shuffled_playlist (shuffle : List String → List String) (songsOk : Bool)
    (all_songs : List String) (valid : String → Bool) :
    List StreamEvent × List String :=
  let fetchEv := get_all_songs_events songsOk
  if all_songs.isEmpty then (fetchEv, [])
  else
    let validationEv := all_songs.map (fun u => StreamEvent.validateUrl u (valid u))
    let valid_songs := all_songs.filter valid
    if valid_songs.isEmpty then (fetchEv ++ validationEv, [])
    else (fetchEv ++ validationEv, shuffle valid_songs)

/-- The `for song in playlist:` body of `stream_continuously`: stream a
song; on failure `continue` with the next one, on success `break` so a
fresh shuffled playlist is built. -/
def streamPhase (streamOk : String → Bool) : List String → List StreamEvent
  | [] => []
  | u :: rest =>
    if streamOk u then [StreamEvent.streamTrack u true]
    else StreamEvent.streamTrack u false :: streamPhase streamOk rest

/-- One iteration of the `while True` loop of `stream_continuously`:
build a shuffled playlist (sleeping when it is empty), then stream from
it until the first success. -/
def stream_iteration (shuffle : List String → List String) (songsOk : Bool)
    (all_songs : List String) (valid streamOk : String → Bool) : List StreamEvent :=
  let cr := create_shuffled_playlist shuffle songsOk all_songs valid
  if cr.2.isEmpty then cr.1 ++ [StreamEvent.sleepWait]
  else cr.1 ++ streamPhase streamOk cr.2

/-- Is the event a completed playback of a track? -/
def isStreamEvent : StreamEvent → Bool
  | StreamEvent.streamTrack _ _ => true
  | _ => false

/-- Is the event a `POST /next_song` call? -/
def isAdvanceEvent : StreamEvent → Bool
  | StreamEvent.advanceCall => true
  | _ => false

/-! ## Concrete fixtures used by witnesses and counterexamples -/

/-- The identity permutation, a legitimate value of `random.shuffle`. -/
def idShuffle : List Nat → List Nat := fun l => l

/-- The identity permutation on URL lists. -/
def idShuffleS : List String → List String := fun l => l

/-- A minimal two-track catalog. -/
def songA : Song :=
  { id := 1, title := "A", artist := "BC", album := "X", file_path := "uA",
    album_art_url := "aA", unreleased := false }

/-- Second track of the small catalogs. -/
def songB : Song :=
  { id := 2, title := "B", artist := "BC", album := "X", file_path := "uB",
    album_art_url := "aB", unreleased := false }

/-- Third track of the three-track catalog. -/
def songC : Song :=
  { id := 3, title := "C", artist := "BC", album := "X", file_path := "uC",
    album_art_url := "aC", unreleased := false }

/-- Two-track catalog with no playlist yet. -/
def dbTwo : DB := { songs := [songA, songB], playlist := [] }

/-- Three-track catalog with no playlist yet. -/
def dbThree : DB := { songs := [songA, songB, songC], playlist := [] }

/-- Two tracks, the current entry at the last position: the state
reached from `dbTwo` by one shuffle generation (identity permutation)
and one advance at time 5. -/
def dbLastCurrent : DB :=
  { songs := [songA, songB],
    playlist :=
      [{ song_id := 1, play_order := 0, played_at := some 5, is_playing := false },
       { song_id := 2, play_order := 1, played_at := none, is_playing := true }] }

/-- Three tracks with the current entry at position 0 (two forward
entries remain). -/
def dbFirstCurrent : DB :=
  { songs := [songA, songB, songC],
    playlist :=
      [{ song_id := 1, play_order := 0, played_at := none, is_playing := true },
       { song_id := 2, play_order := 1, played_at := none, is_playing := false },
       { song_id := 3, play_order := 2, played_at := none, is_playing := false }] }

/-- Three tracks with the current entry at the last position (no
forward entries remain). -/
def dbThirdCurrent : DB :=
  { songs := [songA, songB, songC],
    playlist :=
      [{ song_id := 1, play_order := 0, played_at := some 1, is_playing := false },
       { song_id := 2, play_order := 1, played_at := some 2, is_playing := false },
       { song_id := 3, play_order := 2, played_at := none, is_playing := true }] }


/-! ## Statement abbreviations for the claims -/

/-- The observable outcome claim C1 asserts of one shuffle generation:
one entry per track (as multisets of ids, and exactly once each when the
catalog ids are distinct), positions exactly `0..N-1` in row order, and
the playing flag held exactly by the entry at position 0. -/
def genShuffleProp (shuffle : List Nat → List Nat) (db : DB) : Prop :=
  ((generate_new_playlist shuffle db).playlist.map (fun e => e.song_id)).Perm
      (db.songs.map (fun s => s.id))
  ∧ (generate_new_playlist shuffle db).playlist.map (fun e => e.play_order)
      = List.range db.songs.length
  ∧ (generate_new_playlist shuffle db).playlist ≠ []
  ∧ (∀ e ∈ (generate_new_playlist shuffle db).playlist,
      e.is_playing = true ↔ e.play_order = 0)
  ∧ ((db.songs.map (fun s => s.id)).Nodup →
      ∀ sid ∈ db.songs.map (fun s => s.id),
        (generate_new_playlist shuffle db).playlist.countP (fun e => e.song_id == sid) = 1)

/-- The behaviour claim C3 asserts of `advance_to_next_song`: the
current entry (when present) is cleared and stamped and the next
position is current + 1 (0 when absent); when a row exists at the next
position it becomes the one playing with no regeneration; at the end of
the playlist exactly one regeneration happens and the new position-0 row
is selected; the 404 happens exactly when even the regenerated playlist
is empty, i.e. the catalog is empty. -/
def advanceSpecProp (shuffle : List Nat → List Nat) (now : Nat) (db : DB) : Prop :=
  (∀ i cur, findIdxEntry (fun e => e.is_playing) db.playlist = some (i, cur) →
    (clearedPlaylist now db)[i]?
        = some { cur with is_playing := false, played_at := some now }
    ∧ nextOrderOf db = cur.play_order + 1)
  ∧ (findIdxEntry (fun e => e.is_playing) db.playlist = none → nextOrderOf db = 0)
  ∧ (∀ j e2, findIdxEntry (fun e => e.play_order == nextOrderOf db)
        (clearedPlaylist now db) = some (j, e2) →
      (advance_to_next_song shuffle now db).2 = some e2.song_id
      ∧ (advance_to_next_song shuffle now db).1.playlist
          = updAt (clearedPlaylist now db) j setPlaying
      ∧ (advance_to_next_song shuffle now db).1.playlist.map (fun e => e.song_id)
          = db.playlist.map (fun e => e.song_id))
  ∧ (findIdxEntry (fun e => e.play_order == nextOrderOf db)
        (clearedPlaylist now db) = none → db.songs ≠ [] →
      (advance_to_next_song shuffle now db).1.playlist.map (fun e => e.play_order)
          = List.range db.songs.length
      ∧ ((advance_to_next_song shuffle now db).1.playlist.map
          (fun e => e.song_id)).Perm (db.songs.map (fun s => s.id))
      ∧ (∀ e ∈ (advance_to_next_song shuffle now db).1.playlist,
          e.is_playing = true ↔ e.play_order = 0)
      ∧ (∃ e0, (advance_to_next_song shuffle now db).1.playlist.head? = some e0
          ∧ e0.is_playing = true ∧ e0.play_order = 0
          ∧ (advance_to_next_song shuffle now db).2 = some e0.song_id))
  ∧ ((advance_to_next_song shuffle now db).2 = none ↔
      (findIdxEntry (fun e => e.play_order == nextOrderOf db)
        (clearedPlaylist now db) = none ∧ db.songs = []))

/-- The amended upcoming-list size law for `GET /playlist` (claim C5):
with a current entry in place, the upcoming list is the (at most five)
forward entries followed by one wrap-around pass that appends at most
the whole playlist, so its size is
`min 5 F + min (5 - min 5 F) N`, and it is exactly five precisely when
`min 5 F + N` reaches five. -/
def viewUpcomingProp (shuffle : List Nat → List Nat) (db : DB) (cur : PlaylistEntry) : Prop :=
  ∃ ups, (get_current_playlist shuffle db).2 = some (cur.song_id, ups)
    ∧ ups.length
        = min 5 ((db.playlist.filter (fun e => cur.play_order < e.play_order)).length)
          + min (5 - min 5 ((db.playlist.filter
              (fun e => cur.play_order < e.play_order)).length)) db.playlist.length
    ∧ (ups.length = 5 ↔
        5 ≤ min 5 ((db.playlist.filter (fun e => cur.play_order < e.play_order)).length)
          + db.playlist.length)

/-- The behaviour claim C6 asserts of `queue_specific_song`: 404 when no
entry is current or the target has no entry; otherwise the target moves
to current position + 1 and the first entry that sat there moves to the
target old position; re-queueing the already-next track is a no-op. -/
def queueSwapProp (sid : Nat) (db : DB) : Prop :=
  (findIdxEntry (fun e => e.is_playing) db.playlist = none →
    queue_specific_song sid db = (db, none))
  ∧ (∀ iv, findIdxEntry (fun e => e.is_playing) db.playlist = some iv →
      findIdxEntry (fun e => e.song_id == sid) db.playlist = none →
      queue_specific_song sid db = (db, none))
  ∧ (∀ i cur k tgt j nxt,
      findIdxEntry (fun e => e.is_playing) db.playlist = some (i, cur) →
      findIdxEntry (fun e => e.song_id == sid) db.playlist = some (k, tgt) →
      findIdxEntry (fun e => e.play_order == cur.play_order + 1) db.playlist
          = some (j, nxt) →
      tgt.play_order ≠ cur.play_order + 1 →
      ((queue_specific_song sid db).1.playlist[k]?).map (fun e => e.play_order)
          = some (cur.play_order + 1)
      ∧ ((queue_specific_song sid db).1.playlist[j]?).map (fun e => e.play_order)
          = some tgt.play_order
      ∧ (queue_specific_song sid db).2 = some sid)
  ∧ (∀ i cur k tgt,
      findIdxEntry (fun e => e.is_playing) db.playlist = some (i, cur) →
      findIdxEntry (fun e => e.song_id == sid) db.playlist = some (k, tgt) →
      tgt.play_order = cur.play_order + 1 →
      queue_specific_song sid db = (db, some sid))

/-- The amended contiguity law (claim C4): generation establishes the
contiguous range 0..N-1, advance and skip preserve it, and
queue-specific-track preserves it whenever an entry exists at current
position + 1; its 404 branches leave the store untouched. -/
def contiguityPreservationProp (shuffle : List Nat → List Nat) (now sid : Nat)
    (db : DB) : Prop :=
  contiguousOrders (generate_new_playlist shuffle db)
  ∧ contiguousOrders (advance_to_next_song shuffle now db).1
  ∧ contiguousOrders (skip_song shuffle db).1
  ∧ (∀ i cur, findIdxEntry (fun e => e.is_playing) db.playlist = some (i, cur) →
      (findIdxEntry (fun e => e.play_order == cur.play_order + 1) db.playlist).isSome →
      contiguousOrders (queue_specific_song sid db).1)
  ∧ (findIdxEntry (fun e => e.is_playing) db.playlist = none →
      (queue_specific_song sid db).1 = db)
  ∧ (findIdxEntry (fun e => e.song_id == sid) db.playlist = none →
      (queue_specific_song sid db).1 = db)

/-! ## Infrastructure lemmas -/

theorem length_updAt {α : Type} (f : α → α) :
    ∀ (l : List α) (i : Nat), (updAt l i f).length = l.length := by
  intro l
  induction l with
  | nil => intro i; rfl
  | cons x rest ih =>
    intro i
    cases i with
    | zero => rfl
    | succ n => simp [updAt, ih]

theorem getElem?_updAt_self {α : Type} (f : α → α) :
    ∀ (l : List α) (i : Nat), (updAt l i f)[i]? = (l[i]?).map f := by
  intro l
  induction l with
  | nil => intro i; cases i <;> rfl
  | cons x rest ih =>
    intro i
    cases i with
    | zero => simp [updAt]
    | succ n => simpa [updAt] using ih n

theorem getElem?_updAt_ne {α : Type} (f : α → α) :
    ∀ (l : List α) (i j : Nat), j ≠ i → (updAt l i f)[j]? = l[j]? := by
  intro l
  induction l with
  | nil => intro i j _; cases i <;> rfl
  | cons x rest ih =>
    intro i j hne
    cases i with
    | zero =>
      cases j with
      | zero => exact absurd rfl hne
      | succ m => simp [updAt]
    | succ n =>
      cases j with
      | zero => simp [updAt]
      | succ m =>
        have hmn : m ≠ n := fun hh => hne (by rw [hh])
        simpa [updAt] using ih n m hmn

theorem map_updAt_congr {α β : Type} (f : α → α) (g : α → β)
    (hfg : ∀ x, g (f x) = g x) :
    ∀ (l : List α) (i : Nat), (updAt l i f).map g = l.map g := by
  intro l
  induction l with
  | nil => intro i; rfl
  | cons x rest ih =>
    intro i
    cases i with
    | zero => simp [updAt, hfg]
    | succ n => simp [updAt, ih]

theorem map_updAt_set {α β : Type} (f : α → α) (g : α → β) :
    ∀ (l : List α) (i : Nat) (e : α), l[i]? = some e →
      (updAt l i f).map g = (l.map g).set i (g (f e)) := by
  intro l
  induction l with
  | nil => intro i e h; simp at h
  | cons x rest ih =>
    intro i e h
    cases i with
    | zero =>
      simp at h
      subst h
      simp [updAt]
    | succ n =>
      simp at h
      simp [updAt, ih n e h]

theorem updAt_eq_self {α : Type} (f : α → α) :
    ∀ (l : List α) (i : Nat), (∀ e, l[i]? = some e → f e = e) → updAt l i f = l := by
  intro l
  induction l with
  | nil => intro i _; rfl
  | cons x rest ih =>
    intro i h
    cases i with
    | zero => simp [updAt, h x (by simp)]
    | succ n =>
      simp only [updAt, List.cons.injEq, true_and]
      exact ih n (fun e he => h e (by simpa using he))

theorem countP_updAt_le {α : Type} (p : α → Bool) (f : α → α) :
    ∀ (l : List α) (i : Nat), (updAt l i f).countP p ≤ l.countP p + 1 := by
  intro l
  induction l with
  | nil => intro i; simp [updAt]
  | cons x rest ih =>
    intro i
    cases i with
    | zero =>
      simp only [updAt, List.countP_cons]
      cases hpf : p (f x) <;> cases hpx : p x <;> simp <;> omega
    | succ n =>
      simp only [updAt, List.countP_cons]
      have hn := ih n
      cases hpx : p x <;> simp <;> omega

theorem countP_updAt_preserve {α : Type} (p : α → Bool) (f : α → α)
    (hpf : ∀ x, p (f x) = p x) :
    ∀ (l : List α) (i : Nat), (updAt l i f).countP p = l.countP p := by
  intro l
  induction l with
  | nil => intro i; rfl
  | cons x rest ih =>
    intro i
    cases i with
    | zero => simp [updAt, List.countP_cons, hpf]
    | succ n => simp [updAt, List.countP_cons, ih]

theorem findIdxEntry_some {α : Type} (p : α → Bool) :
    ∀ (l : List α) (i : Nat) (e : α), findIdxEntry p l = some (i, e) →
      l[i]? = some e ∧ p e = true := by
  intro l
  induction l with
  | nil => intro i e h; simp [findIdxEntry] at h
  | cons x rest ih =>
    intro i e h
    simp only [findIdxEntry] at h
    by_cases hx : p x
    · rw [if_pos hx] at h
      rcases Option.some.inj h with h2
      rcases Prod.mk.inj h2 with ⟨hi, he⟩
      subst hi
      subst he
      exact ⟨by simp, hx⟩
    · rw [if_neg hx] at h
      cases hrec : findIdxEntry p rest with
      | none => rw [hrec] at h; simp at h
      | some a =>
        rw [hrec] at h
        rw [Option.map_some'] at h
        rcases Option.some.inj h with h2
        rcases Prod.mk.inj h2 with ⟨hi, he⟩
        subst hi
        subst he
        obtain ⟨n, b⟩ := a
        have := ih n b hrec
        simpa using this

theorem countP_eq_zero_of_findIdxEntry_none {α : Type} (p : α → Bool) :
    ∀ l : List α, findIdxEntry p l = none → l.countP p = 0 := by
  intro l
  induction l with
  | nil => intro _; rfl
  | cons x rest ih =>
    intro h
    simp only [findIdxEntry] at h
    by_cases hx : p x
    · rw [if_pos hx] at h; simp at h
    · rw [if_neg hx] at h
      cases hrec : findIdxEntry p rest with
      | none => simp [List.countP_cons, hx, ih hrec]
      | some a => rw [hrec] at h; simp at h

theorem findIdxEntry_isSome_of_mem {α : Type} (p : α → Bool) :
    ∀ (l : List α) (x : α), x ∈ l → p x = true → (findIdxEntry p l).isSome := by
  intro l
  induction l with
  | nil => intro x hx; simp at hx
  | cons y rest ih =>
    intro x hx hpx
    simp only [findIdxEntry]
    by_cases hy : p y
    · rw [if_pos hy]; rfl
    · rw [if_neg hy]
      rcases List.mem_cons.mp hx with h | h
      · subst h; exact absurd hpx (by simpa using hy)
      · have hs := ih x h hpx
        cases hrec : findIdxEntry p rest with
        | none => rw [hrec] at hs; simp at hs
        | some a => simp

theorem countP_clearAt {α : Type} (p : α → Bool) (f : α → α)
    (hf : ∀ x, p (f x) = false) :
    ∀ (l : List α) (i : Nat) (e : α), findIdxEntry p l = some (i, e) →
      (updAt l i f).countP p + 1 = l.countP p := by
  intro l
  induction l with
  | nil => intro i e h; simp [findIdxEntry] at h
  | cons x rest ih =>
    intro i e h
    simp only [findIdxEntry] at h
    by_cases hx : p x
    · rw [if_pos hx] at h
      rcases Option.some.inj h with h2
      rcases Prod.mk.inj h2 with ⟨hi, _⟩
      subst hi
      simp [updAt, List.countP_cons, hf, hx]
    · rw [if_neg hx] at h
      cases hrec : findIdxEntry p rest with
      | none => rw [hrec] at h; simp at h
      | some a =>
        rw [hrec] at h
        rw [Option.map_some'] at h
        rcases Option.some.inj h with h2
        rcases Prod.mk.inj h2 with ⟨hi, _⟩
        subst hi
        obtain ⟨n, b⟩ := a
        have hrec2 := ih n b hrec
        simp only [updAt, List.countP_cons]
        omega

theorem cons_set_perm {α : Type} (x : α) :
    ∀ (t : List α) (m : Nat) (b : α), t[m]? = some b →
      (b :: t.set m x).Perm (x :: t) := by
  intro t
  induction t with
  | nil => intro m b h; simp at h
  | cons y t2 ih =>
    intro m b h
    cases m with
    | zero =>
      simp at h
      subst h
      exact List.Perm.swap _ _ _
    | succ m2 =>
      simp at h
      show (b :: y :: t2.set m2 x).Perm (x :: y :: t2)
      have h1 : (b :: y :: t2.set m2 x).Perm (y :: b :: t2.set m2 x) :=
        List.Perm.swap y b (t2.set m2 x)
      have h2 : (y :: b :: t2.set m2 x).Perm (y :: x :: t2) :=
        List.Perm.cons y (ih m2 b h)
      have h3 : (y :: x :: t2).Perm (x :: y :: t2) := List.Perm.swap x y t2
      exact (h1.trans h2).trans h3

theorem set_set_perm {α : Type} :
    ∀ (l : List α) (i j : Nat) (a b : α), i ≠ j →
      l[i]? = some a → l[j]? = some b → ((l.set i b).set j a).Perm l := by
  intro l
  induction l with
  | nil => intro i j a b _ h _; simp at h
  | cons x t ih =>
    intro i j a b hij ha hb
    cases i with
    | zero =>
      cases j with
      | zero => exact absurd rfl hij
      | succ m =>
        simp at ha hb
        subst ha
        simpa using cons_set_perm _ t m _ hb
    | succ n =>
      cases j with
      | zero =>
        simp at ha hb
        subst hb
        simpa using cons_set_perm _ t n _ ha
      | succ m =>
        simp at ha hb
        have hnm : n ≠ m := fun hh => hij (by rw [hh])
        show (x :: (t.set n b).set m a).Perm (x :: t)
        exact List.Perm.cons x (ih n m a b hnm ha hb)

/-! ## Facts about shuffle generation -/

theorem buildEntries_map_order :
    ∀ (i : Nat) (l : List Nat),
      (buildEntries i l).map (fun e => e.play_order) = List.range' i l.length := by
  intro i l
  induction l generalizing i with
  | nil => simp [buildEntries]
  | cons a rest ih => simp [buildEntries, List.range', ih]

theorem buildEntries_map_sid :
    ∀ (i : Nat) (l : List Nat), (buildEntries i l).map (fun e => e.song_id) = l := by
  intro i l
  induction l generalizing i with
  | nil => simp [buildEntries]
  | cons a rest ih => simp [buildEntries, ih]

theorem buildEntries_mem :
    ∀ (i : Nat) (l : List Nat) (e : PlaylistEntry), e ∈ buildEntries i l →
      e.is_playing = false ∧ i ≤ e.play_order := by
  intro i l
  induction l generalizing i with
  | nil => intro e h; simp [buildEntries] at h
  | cons a rest ih =>
    intro e h
    rcases List.mem_cons.mp h with h1 | h1
    · subst h1; exact ⟨rfl, Nat.le_refl i⟩
    · have := ih (i + 1) e h1
      exact ⟨this.1, Nat.le_of_succ_le this.2⟩

theorem markFirstPlaying_map_order (l : List PlaylistEntry) :
    (markFirstPlaying l).map (fun e => e.play_order) = l.map (fun e => e.play_order) := by
  cases l <;> simp [markFirstPlaying]

theorem markFirstPlaying_map_sid (l : List PlaylistEntry) :
    (markFirstPlaying l).map (fun e => e.song_id) = l.map (fun e => e.song_id) := by
  cases l <;> simp [markFirstPlaying]

theorem generate_playlist_eq (shuffle : List Nat → List Nat) (db : DB) :
    (generate_new_playlist shuffle db).playlist
      = markFirstPlaying (buildEntries 0 (shuffle (db.songs.map (fun s => s.id)))) := rfl

theorem generate_songs_eq (shuffle : List Nat → List Nat) (db : DB) :
    (generate_new_playlist shuffle db).songs = db.songs := rfl

theorem generate_map_order (shuffle : List Nat → List Nat) (db : DB) :
    (generate_new_playlist shuffle db).playlist.map (fun e => e.play_order)
      = List.range (shuffle (db.songs.map (fun s => s.id))).length := by
  rw [generate_playlist_eq, markFirstPlaying_map_order, buildEntries_map_order,
    List.range_eq_range']

theorem generate_map_sid (shuffle : List Nat → List Nat) (db : DB) :
    (generate_new_playlist shuffle db).playlist.map (fun e => e.song_id)
      = shuffle (db.songs.map (fun s => s.id)) := by
  rw [generate_playlist_eq, markFirstPlaying_map_sid, buildEntries_map_sid]

theorem generate_length (shuffle : List Nat → List Nat) (db : DB) :
    (generate_new_playlist shuffle db).playlist.length
      = (shuffle (db.songs.map (fun s => s.id))).length := by
  have := congrArg List.length (generate_map_sid shuffle db)
  simpa using this

theorem generate_playing_iff (shuffle : List Nat → List Nat) (db : DB) :
    ∀ e ∈ (generate_new_playlist shuffle db).playlist,
      e.is_playing = true ↔ e.play_order = 0 := by
  intro e he
  rw [generate_playlist_eq] at he
  cases hl : shuffle (db.songs.map (fun s => s.id)) with
  | nil => rw [hl] at he; simp [buildEntries, markFirstPlaying] at he
  | cons a rest =>
    rw [hl] at he
    simp only [buildEntries, markFirstPlaying] at he
    rcases List.mem_cons.mp he with h1 | h1
    · subst h1; simp
    · have := buildEntries_mem 1 rest e h1
      constructor
      · intro hp; rw [this.1] at hp; exact absurd hp (by simp)
      · intro hp; omega

theorem generate_amoc (shuffle : List Nat → List Nat) (db : DB) :
    atMostOneCurrent (generate_new_playlist shuffle db) := by
  unfold atMostOneCurrent
  rw [generate_playlist_eq]
  cases hl : shuffle (db.songs.map (fun s => s.id)) with
  | nil => simp [buildEntries, markFirstPlaying]
  | cons a rest =>
    simp only [buildEntries, markFirstPlaying, List.countP_cons]
    have hz : (buildEntries 1 rest).countP (fun e => e.is_playing) = 0 := by
      rw [List.countP_eq_zero]
      intro e he
      simp [(buildEntries_mem 1 rest e he).1]
    simp [hz]

theorem generate_contiguous (shuffle : List Nat → List Nat) (db : DB) :
    contiguousOrders (generate_new_playlist shuffle db) := by
  unfold contiguousOrders
  rw [generate_map_order]
  have hlen : (generate_new_playlist shuffle db).playlist.length
      = (shuffle (db.songs.map (fun s => s.id))).length := generate_length shuffle db
  rw [hlen]

/-- When the fresh shuffle is non-empty, its first row is the row at
`play_order` 0, it is already playing, and re-marking it leaves the
playlist unchanged. -/
theorem generate_find_zero (shuffle : List Nat → List Nat) (db : DB)
    (hne : shuffle (db.songs.map (fun s => s.id)) ≠ []) :
    ∃ e0 t, (generate_new_playlist shuffle db).playlist = e0 :: t
      ∧ e0.is_playing = true ∧ e0.play_order = 0
      ∧ findIdxEntry (fun e => e.play_order == 0)
          (generate_new_playlist shuffle db).playlist = some (0, e0)
      ∧ updAt (generate_new_playlist shuffle db).playlist 0 setPlaying
          = (generate_new_playlist shuffle db).playlist := by
  rw [generate_playlist_eq]
  cases hl : shuffle (db.songs.map (fun s => s.id)) with
  | nil => exact absurd hl hne
  | cons a rest =>
    refine ⟨{ song_id := a, play_order := 0, played_at := none, is_playing := true },
      buildEntries 1 rest, ?_, rfl, rfl, ?_, ?_⟩
    · simp [buildEntries, markFirstPlaying]
    · simp [buildEntries, markFirstPlaying, findIdxEntry]
    · simp [buildEntries, markFirstPlaying, updAt, setPlaying]

/-! ## Preservation of "at most one current" (claim C2) -/

theorem clearedPlaylist_countP (now : Nat) (db : DB) (h : atMostOneCurrent db) :
    (clearedPlaylist now db).countP (fun e => e.is_playing) = 0 := by
  unfold clearedPlaylist
  cases hf : findIdxEntry (fun e => e.is_playing) db.playlist with
  | none => exact countP_eq_zero_of_findIdxEntry_none _ _ hf
  | some iv =>
    show (updAt db.playlist iv.1 (clearStamp now)).countP (fun e => e.is_playing) = 0
    have hc := countP_clearAt (fun e => e.is_playing) (clearStamp now)
      (fun x => rfl) db.playlist iv.1 iv.2 (by simpa using hf)
    unfold atMostOneCurrent at h
    omega

theorem advance_amoc (shuffle : List Nat → List Nat) (now : Nat) (db : DB)
    (h : atMostOneCurrent db) :
    atMostOneCurrent (advance_to_next_song shuffle now db).1 := by
  have hcl := clearedPlaylist_countP now db h
  simp only [advance_to_next_song]
  cases hfind : findIdxEntry (fun e => e.play_order == nextOrderOf db)
      (clearedPlaylist now db) with
  | some jv =>
    show (updAt (clearedPlaylist now db) jv.1 setPlaying).countP
      (fun e => e.is_playing) ≤ 1
    have hle := countP_updAt_le (fun e => e.is_playing) setPlaying
      (clearedPlaylist now db) jv.1
    omega
  | none =>
    cases hz : findIdxEntry (fun e => e.play_order == 0)
        (generate_new_playlist shuffle { db with playlist := clearedPlaylist now db }).playlist with
    | none => exact generate_amoc shuffle _
    | some jv =>
      have hne : shuffle (({ db with playlist := clearedPlaylist now db } : DB).songs.map
          (fun s => s.id)) ≠ [] := by
        intro hemp
        have hpl : (generate_new_playlist shuffle
            { db with playlist := clearedPlaylist now db }).playlist = [] := by
          rw [generate_playlist_eq, hemp]; rfl
        rw [hpl] at hz
        simp [findIdxEntry] at hz
      obtain ⟨e0, t, hpl, hplay, _, hfz, hupd⟩ :=
        generate_find_zero shuffle { db with playlist := clearedPlaylist now db } hne
      have hjv : jv = (0, e0) := by
        rw [hz] at hfz
        exact Option.some.inj hfz
      subst hjv
      show atMostOneCurrent
        { generate_new_playlist shuffle { db with playlist := clearedPlaylist now db } with
          playlist := updAt (generate_new_playlist shuffle
            { db with playlist := clearedPlaylist now db }).playlist 0 setPlaying }
      rw [hupd]
      exact generate_amoc shuffle _

theorem skip_amoc (shuffle : List Nat → List Nat) (db : DB) :
    atMostOneCurrent (skip_song shuffle db).1 := by
  have hg := generate_amoc shuffle db
  simp only [skip_song]
  cases findIdxEntry (fun e => e.play_order == 0)
      (generate_new_playlist shuffle db).playlist with
  | none => exact hg
  | some jv => exact hg

theorem queue_amoc (sid : Nat) (db : DB) (h : atMostOneCurrent db) :
    atMostOneCurrent (queue_specific_song sid db).1 := by
  unfold atMostOneCurrent
  cases h1 : findIdxEntry (fun e => e.is_playing) db.playlist with
  | none => simp only [queue_specific_song, h1]; exact h
  | some iv =>
    cases h2 : findIdxEntry (fun e => e.song_id == sid) db.playlist with
    | none => simp only [queue_specific_song, h1, h2]; exact h
    | some kt =>
      cases h3 : findIdxEntry (fun e => e.play_order == iv.2.play_order + 1) db.playlist with
      | none =>
        simp only [queue_specific_song, h1, h2, h3]
        rw [countP_updAt_preserve (fun e : PlaylistEntry => e.is_playing)
          (fun e : PlaylistEntry => { e with play_order := iv.2.play_order + 1 }) (fun x => rfl)]
        exact h
      | some jv =>
        simp only [queue_specific_song, h1, h2, h3]
        rw [countP_updAt_preserve (fun e : PlaylistEntry => e.is_playing)
          (fun e : PlaylistEntry => { e with play_order := iv.2.play_order + 1 }) (fun x => rfl)]
        rw [countP_updAt_preserve (fun e : PlaylistEntry => e.is_playing)
          (fun e : PlaylistEntry => { e with play_order := kt.2.play_order }) (fun x => rfl)]
        exact h

/-- Claim C2.  Starting from a store in which at most one entry is
marked playing, any finite serial sequence of advance (`/next_song`),
skip (`/skip`) and queue-specific-track (`/play-next/{song_id}`)
operations leaves at most one entry marked playing. -/
theorem c2_at_most_one_current (shuffle : List Nat → List Nat) (ops : List Op) (db : DB)
    (h : atMostOneCurrent db) : atMostOneCurrent (applyOps shuffle db ops) := by
  induction ops generalizing db with
  | nil => exact h
  | cons op rest ih =>
    have hstep : atMostOneCurrent (applyOp shuffle db op) := by
      cases op with
      | advanceOp now => exact advance_amoc shuffle now db h
      | skipOp => exact skip_amoc shuffle db
      | queueOp sid => exact queue_amoc sid db h
    exact ih (applyOp shuffle db op) hstep

/-- Witness for C2 at a concrete store and operation sequence. -/
theorem c2_at_most_one_current_witness :
    atMostOneCurrent dbFirstCurrent
    ∧ atMostOneCurrent (applyOps idShuffle dbFirstCurrent
        [Op.advanceOp 1, Op.queueOp 3, Op.skipOp, Op.advanceOp 2]) :=
  ⟨by decide, c2_at_most_one_current idShuffle
    [Op.advanceOp 1, Op.queueOp 3, Op.skipOp, Op.advanceOp 2] dbFirstCurrent (by decide)⟩

/-! ## Claim C1 -/

/-- Claim C1.  For every non-empty catalog and every permutation the
shuffle may produce, `generate_new_playlist` leaves exactly one entry
per track, `play_order`s forming `0..N-1` with no gaps or duplicates,
and the entry at `play_order` 0 marked playing. -/
theorem c1_generate_shuffle (shuffle : List Nat → List Nat)
    (hs : ∀ l : List Nat, (shuffle l).Perm l) (db : DB) (hne : db.songs ≠ []) :
    genShuffleProp shuffle db := by
  have hp := hs (db.songs.map (fun s => s.id))
  have hlen : (shuffle (db.songs.map (fun s => s.id))).length = db.songs.length := by
    rw [hp.length_eq, List.length_map]
  refine ⟨?_, ?_, ?_, generate_playing_iff shuffle db, ?_⟩
  · rw [generate_map_sid]; exact hp
  · rw [generate_map_order, hlen]
  · intro hemp
    have h0 := generate_length shuffle db
    rw [hemp] at h0
    simp at h0
    rw [hlen] at h0
    exact hne (List.length_eq_zero.mp h0.symm)
  · intro hnd sid hmem
    have hcnt : (generate_new_playlist shuffle db).playlist.countP (fun e => e.song_id == sid)
        = (shuffle (db.songs.map (fun s => s.id))).countP (fun x => x == sid) := by
      rw [← generate_map_sid shuffle db, List.countP_map]
      rfl
    rw [hcnt, hp.countP_eq]
    rw [← List.count_eq_countP]
    exact List.count_eq_one_of_mem hnd hmem

/-- Witness for C1 at the concrete two-track catalog and the identity
permutation. -/
theorem c1_generate_shuffle_witness :
    dbTwo.songs ≠ [] ∧ genShuffleProp idShuffle dbTwo :=
  ⟨by decide, c1_generate_shuffle idShuffle (fun l => List.Perm.refl l) dbTwo (by decide)⟩

/-! ## Claim C3 -/

theorem clearedPlaylist_map_sid (now : Nat) (db : DB) :
    (clearedPlaylist now db).map (fun e => e.song_id)
      = db.playlist.map (fun e => e.song_id) := by
  unfold clearedPlaylist
  cases findIdxEntry (fun e => e.is_playing) db.playlist with
  | none => rfl
  | some iv =>
    show (updAt db.playlist iv.1 (clearStamp now)).map (fun e => e.song_id)
        = db.playlist.map (fun e => e.song_id)
    exact map_updAt_congr (clearStamp now) (fun e => e.song_id) (fun x => rfl)
      db.playlist iv.1

/-- Claim C3: the advance operation behaves as specified in every
branch: clear-and-stamp, next position selection, single regeneration at
the end, and 404 exactly on an empty catalog. -/
theorem c3_advance_to_next (shuffle : List Nat → List Nat)
    (hs : ∀ l : List Nat, (shuffle l).Perm l) (now : Nat) (db : DB) :
    advanceSpecProp shuffle now db := by
  have hshuffled : db.songs ≠ [] →
      shuffle (db.songs.map (fun s => s.id)) ≠ [] := by
    intro hne hemp
    have := (hs (db.songs.map (fun s => s.id))).length_eq
    rw [hemp] at this
    simp at this
    exact hne (List.length_eq_zero.mp this.symm)
  refine ⟨?_, ?_, ?_, ?_, ?_⟩
  · intro i cur hf
    constructor
    · unfold clearedPlaylist
      rw [hf]
      show (updAt db.playlist i (clearStamp now))[i]?
          = some { cur with is_playing := false, played_at := some now }
      rw [getElem?_updAt_self]
      rw [(findIdxEntry_some _ db.playlist i cur hf).1]
      rfl
    · unfold nextOrderOf
      rw [hf]
  · intro hf
    unfold nextOrderOf
    rw [hf]
  · intro j e2 hfind
    simp only [advance_to_next_song, hfind]
    refine ⟨trivial, trivial, ?_⟩
    rw [map_updAt_congr setPlaying (fun e : PlaylistEntry => e.song_id) (fun x => rfl)]
    exact clearedPlaylist_map_sid now db
  · intro hfind hne
    have hsne : shuffle (({ db with playlist := clearedPlaylist now db } : DB).songs.map
        (fun s => s.id)) ≠ [] := hshuffled hne
    obtain ⟨e0, t, hpl, hplay, horder, hfz, hupd⟩ :=
      generate_find_zero shuffle { db with playlist := clearedPlaylist now db } hsne
    simp only [advance_to_next_song, hfind, hfz, hupd]
    have hlen : (shuffle (db.songs.map (fun s => s.id))).length = db.songs.length := by
      rw [(hs _).length_eq, List.length_map]
    refine ⟨?_, ?_, ?_, ⟨e0, ?_, hplay, horder, rfl⟩⟩
    · rw [generate_map_order]
      rw [hlen]
    · rw [generate_map_sid]
      exact hs _
    · exact generate_playing_iff shuffle _
    · rw [hpl]
      rfl
  · simp only [advance_to_next_song]
    cases hfind : findIdxEntry (fun e => e.play_order == nextOrderOf db)
        (clearedPlaylist now db) with
    | some jv =>
      simp only []
      constructor
      · intro hcon; exact absurd hcon (by simp)
      · intro hcon
        exact absurd hcon.1 (by simp)
    | none =>
      cases hz : findIdxEntry (fun e => e.play_order == 0)
          (generate_new_playlist shuffle
            { db with playlist := clearedPlaylist now db }).playlist with
      | some jv =>
        simp only []
        constructor
        · intro hcon; exact absurd hcon (by simp)
        · intro hcon
          have hemp : (generate_new_playlist shuffle
              { db with playlist := clearedPlaylist now db }).playlist = [] := by
            rw [generate_playlist_eq]
            have hsh : shuffle (db.songs.map (fun s => s.id)) = [] := by
              rw [hcon.2]
              exact (hs []).eq_nil
            rw [show ({ db with playlist := clearedPlaylist now db } : DB).songs
                = db.songs from rfl, hsh]
            rfl
          rw [hemp] at hz
          simp [findIdxEntry] at hz
      | none =>
        simp only []
        constructor
        · intro _
          refine ⟨trivial, ?_⟩
          by_contra hne
          obtain ⟨e0, t, hpl, _, _, hfz, _⟩ := generate_find_zero shuffle
            { db with playlist := clearedPlaylist now db } (hshuffled hne)
          rw [hz] at hfz
          simp at hfz
        · intro _; trivial

/-- Witness for C3 at a concrete three-track store with a current entry
and the identity permutation. -/
theorem c3_advance_to_next_witness :
    (∀ l : List Nat, (idShuffle l).Perm l) ∧ advanceSpecProp idShuffle 9 dbFirstCurrent :=
  ⟨fun l => List.Perm.refl l,
    c3_advance_to_next idShuffle (fun l => List.Perm.refl l) 9 dbFirstCurrent⟩

/-! ## Claim C4 -/

/-- Counterexample for C4.  `dbLastCurrent` is reachable (it is exactly
one generation from `dbTwo` followed by one advance at time 5), its
positions are contiguous and it has one current entry at the last
position; queueing track 1 from it leaves positions 1 and 2 with no
position 0: contiguity is broken. -/
theorem c4_counterexample :
    dbLastCurrent = (advance_to_next_song idShuffle 5
        (generate_new_playlist idShuffle dbTwo)).1
    ∧ contiguousOrders dbLastCurrent
    ∧ atMostOneCurrent dbLastCurrent
    ∧ (queue_specific_song 1 dbLastCurrent).1.playlist.map (fun e => e.play_order) = [2, 1]
    ∧ ¬ contiguousOrders (queue_specific_song 1 dbLastCurrent).1 := by
  refine ⟨by decide, by decide, by decide, by decide, by decide⟩

/-- Reassigning a field to its current value is the identity. -/
theorem playOrder_upd_self (e : PlaylistEntry) (v : Nat) (hv : e.play_order = v) :
    ({ e with play_order := v } : PlaylistEntry) = e := by
  cases e
  simp_all

/-- Amended claim C4: contiguity of positions is established by shuffle
generation and preserved by advance and skip; queue-specific-track
preserves it whenever an entry exists at current position + 1 (and
trivially when it fails with 404), but not when the current entry is at
the last position. -/
theorem c4_amended (shuffle : List Nat → List Nat) (now sid : Nat) (db : DB)
    (h : contiguousOrders db) :
    contiguityPreservationProp shuffle now sid db := by
  unfold contiguityPreservationProp
  have hcl_order : (clearedPlaylist now db).map (fun e => e.play_order)
      = db.playlist.map (fun e => e.play_order) := by
    unfold clearedPlaylist
    cases findIdxEntry (fun e => e.is_playing) db.playlist with
    | none => rfl
    | some iv =>
      show (updAt db.playlist iv.1 (clearStamp now)).map (fun e => e.play_order)
          = db.playlist.map (fun e => e.play_order)
      exact map_updAt_congr (clearStamp now) (fun e => e.play_order) (fun x => rfl)
        db.playlist iv.1
  have hcl_len : (clearedPlaylist now db).length = db.playlist.length := by
    have := congrArg List.length hcl_order
    simpa using this
  refine ⟨generate_contiguous shuffle db, ?_, ?_, ?_, ?_, ?_⟩
  · simp only [advance_to_next_song]
    cases hfind : findIdxEntry (fun e => e.play_order == nextOrderOf db)
        (clearedPlaylist now db) with
    | some jv =>
      show contiguousOrders
        { db with playlist := updAt (clearedPlaylist now db) jv.1 setPlaying }
      unfold contiguousOrders at h ⊢
      simp only []
      rw [map_updAt_congr setPlaying (fun e : PlaylistEntry => e.play_order) (fun x => rfl),
        hcl_order, length_updAt, hcl_len]
      exact h
    | none =>
      cases hz : findIdxEntry (fun e => e.play_order == 0)
          (generate_new_playlist shuffle
            { db with playlist := clearedPlaylist now db }).playlist with
      | none => exact generate_contiguous shuffle _
      | some jv =>
        have hsne : shuffle (({ db with playlist := clearedPlaylist now db } : DB).songs.map
            (fun s => s.id)) ≠ [] := by
          intro hemp
          have hpl : (generate_new_playlist shuffle
              { db with playlist := clearedPlaylist now db }).playlist = [] := by
            rw [generate_playlist_eq, hemp]; rfl
          rw [hpl] at hz
          simp [findIdxEntry] at hz
        obtain ⟨e0, t, hpl, hplay, _, hfz, hupd⟩ :=
          generate_find_zero shuffle { db with playlist := clearedPlaylist now db } hsne
        have hjv : jv = (0, e0) := by
          rw [hz] at hfz
          exact Option.some.inj hfz
        subst hjv
        show contiguousOrders
          { generate_new_playlist shuffle { db with playlist := clearedPlaylist now db } with
            playlist := updAt (generate_new_playlist shuffle
              { db with playlist := clearedPlaylist now db }).playlist 0 setPlaying }
        rw [hupd]
        exact generate_contiguous shuffle _
  · simp only [skip_song]
    cases findIdxEntry (fun e => e.play_order == 0)
        (generate_new_playlist shuffle db).playlist with
    | none => exact generate_contiguous shuffle db
    | some jv => exact generate_contiguous shuffle db
  · intro i cur hcur hnext
    cases h2 : findIdxEntry (fun e => e.song_id == sid) db.playlist with
    | none =>
      simp only [queue_specific_song, hcur, h2]
      exact h
    | some kt =>
      cases h3 : findIdxEntry (fun e => e.play_order == cur.play_order + 1) db.playlist with
      | none => rw [h3] at hnext; simp at hnext
      | some jv =>
        simp only [queue_specific_song, hcur, h2, h3]
        unfold contiguousOrders at h ⊢
        simp only []
        have hkt := findIdxEntry_some _ db.playlist kt.1 kt.2 (by simpa using h2)
        have hjv := findIdxEntry_some _ db.playlist jv.1 jv.2 (by simpa using h3)
        have hjorder : jv.2.play_order = cur.play_order + 1 := by
          have := hjv.2
          simpa using this
        by_cases hjk : jv.1 = kt.1
        · -- the target already sits at the next position: both updates are no-ops
          have hsame : jv.2 = kt.2 := by
            have h1 := hjv.1
            rw [hjk, hkt.1] at h1
            exact (Option.some.inj h1).symm
          have hupd1 : updAt db.playlist jv.1
              (fun e => { e with play_order := kt.2.play_order }) = db.playlist := by
            apply updAt_eq_self
            intro e he
            rw [hjv.1] at he
            have he2 := Option.some.inj he
            subst he2
            exact playOrder_upd_self jv.2 kt.2.play_order (by rw [hsame])
          rw [hupd1]
          have hupd2 : updAt db.playlist kt.1
              (fun e => { e with play_order := cur.play_order + 1 }) = db.playlist := by
            apply updAt_eq_self
            intro e he
            rw [hkt.1] at he
            have he2 := Option.some.inj he
            subst he2
            exact playOrder_upd_self kt.2 (cur.play_order + 1)
              (by rw [← hsame]; exact hjorder)
          rw [hupd2]
          exact h
        · -- genuine swap of the two positions
          have hmap1 := map_updAt_set
            (fun e : PlaylistEntry => { e with play_order := kt.2.play_order })
            (fun e : PlaylistEntry => e.play_order) db.playlist jv.1 jv.2 hjv.1
          have hk1 : (updAt db.playlist jv.1
              (fun e => { e with play_order := kt.2.play_order }))[kt.1]?
                = some kt.2 := by
            rw [getElem?_updAt_ne _ _ _ _ (fun hh => hjk hh.symm), hkt.1]
          have hmap2 := map_updAt_set
            (fun e : PlaylistEntry => { e with play_order := cur.play_order + 1 })
            (fun e : PlaylistEntry => e.play_order)
            (updAt db.playlist jv.1 (fun e => { e with play_order := kt.2.play_order }))
            kt.1 kt.2 hk1
          rw [hmap2, hmap1]
          rw [length_updAt, length_updAt]
          have hgj : (db.playlist.map (fun e => e.play_order))[jv.1]?
              = some (cur.play_order + 1) := by
            rw [List.getElem?_map, hjv.1]
            simp [hjorder]
          have hgk2 : (db.playlist.map (fun e => e.play_order))[kt.1]?
              = some kt.2.play_order := by
            rw [List.getElem?_map, hkt.1]
            rfl
          exact (set_set_perm (db.playlist.map (fun e => e.play_order)) jv.1 kt.1
            (cur.play_order + 1) kt.2.play_order hjk hgj hgk2).trans h
  · intro hnone
    simp only [queue_specific_song, hnone]
  · intro hnone
    cases h1 : findIdxEntry (fun e => e.is_playing) db.playlist with
    | none => simp only [queue_specific_song, h1]
    | some iv => simp only [queue_specific_song, h1, hnone]

/-! ## Claim C5 -/

/-- Counterexample for C5.  In the reachable three-track store whose
current entry sits at the last position, `GET /playlist` returns only 3
upcoming entries, not 5: the single wrap-around pass cannot produce more
entries than the playlist holds. -/
theorem c5_counterexample :
    (findIdxEntry (fun e => e.is_playing) dbThirdCurrent.playlist).isSome
    ∧ dbThirdCurrent.songs ≠ []
    ∧ (get_current_playlist idShuffle dbThirdCurrent).2 = some (3, [1, 2, 3])
    ∧ ((get_current_playlist idShuffle dbThirdCurrent).2.map
        (fun v => v.2.length)) ≠ some 5 := by
  refine ⟨by decide, by decide, by decide, by decide⟩

/-- Amended claim C5: with a current entry, the upcoming list consists
of the at-most-five forward entries completed by one wrap-around pass,
so it has `min 5 F + min (5 - min 5 F) N` entries (exactly five iff
`min 5 F + N ≥ 5`); the particular instance of the claim — catalog size
3 with 2 forward entries — does give exactly five entries wrapping from
position 0. -/
theorem c5_amended (shuffle : List Nat → List Nat) (db : DB) (i : Nat)
    (cur : PlaylistEntry)
    (h : findIdxEntry (fun e => e.is_playing) db.playlist = some (i, cur)) :
    viewUpcomingProp shuffle db cur
    ∧ (get_current_playlist idShuffle dbFirstCurrent).2 = some (1, [2, 3, 1, 2, 3]) := by
  constructor
  · refine ⟨upcomingOf db cur, by simp only [get_current_playlist, h], ?_, ?_⟩
    · simp only [upcomingOf, sortByOrder]
      rw [List.length_map]
      by_cases hlt : ((List.insertionSort (fun a b => a.play_order ≤ b.play_order)
          (db.playlist.filter (fun e => cur.play_order < e.play_order))).take 5).length < 5
      · rw [if_pos hlt]
        rw [List.length_append, List.length_take, List.length_insertionSort,
          List.length_take, List.length_insertionSort]
      · rw [if_neg hlt]
        rw [List.length_take, List.length_insertionSort] at hlt ⊢
        omega
    · simp only [upcomingOf, sortByOrder]
      rw [List.length_map]
      by_cases hlt : ((List.insertionSort (fun a b => a.play_order ≤ b.play_order)
          (db.playlist.filter (fun e => cur.play_order < e.play_order))).take 5).length < 5
      · rw [if_pos hlt]
        rw [List.length_append, List.length_take, List.length_insertionSort,
          List.length_take, List.length_insertionSort]
        rw [List.length_take, List.length_insertionSort] at hlt
        omega
      · rw [if_neg hlt]
        rw [List.length_take, List.length_insertionSort] at hlt ⊢
        omega
  · decide

/-- Witness for C5 at the three-track store with the current entry at
position 0 (two forward entries). -/
theorem c5_amended_witness :
    findIdxEntry (fun e => e.is_playing) dbFirstCurrent.playlist
      = some (0, { song_id := 1, play_order := 0, played_at := none, is_playing := true })
    ∧ (viewUpcomingProp idShuffle dbFirstCurrent
        { song_id := 1, play_order := 0, played_at := none, is_playing := true }
      ∧ (get_current_playlist idShuffle dbFirstCurrent).2 = some (1, [2, 3, 1, 2, 3])) :=
  ⟨by decide, c5_amended idShuffle dbFirstCurrent 0
    { song_id := 1, play_order := 0, played_at := none, is_playing := true } (by decide)⟩

/-! ## Claim C6 -/

/-- Claim C6.  `queue_specific_song` swaps the target entry with the
entry after the current one, is idempotent on the already-next track,
and 404s exactly when there is no current entry or no entry for the
target track. -/
theorem c6_queue_specific (sid : Nat) (db : DB) : queueSwapProp sid db := by
  refine ⟨?_, ?_, ?_, ?_⟩
  · intro hnone
    simp only [queue_specific_song, hnone]
  · intro iv h1 h2
    simp only [queue_specific_song, h1, h2]
  · intro i cur k tgt j nxt h1 h2 h3 hne
    have hkt := findIdxEntry_some _ db.playlist k tgt h2
    have hjv := findIdxEntry_some _ db.playlist j nxt h3
    have hjorder : nxt.play_order = cur.play_order + 1 := by simpa using hjv.2
    have hjk : j ≠ k := by
      intro hh
      subst hh
      have hsame : nxt = tgt := Option.some.inj (hjv.1.symm.trans hkt.1)
      exact hne (by rw [← hsame, hjorder])
    simp only [queue_specific_song, h1, h2, h3]
    refine ⟨?_, ?_, trivial⟩
    · show ((updAt (updAt db.playlist j
            (fun e => { e with play_order := tgt.play_order })) k
          (fun e => { e with play_order := cur.play_order + 1 }))[k]?).map
        (fun e => e.play_order) = some (cur.play_order + 1)
      rw [getElem?_updAt_self]
      rw [getElem?_updAt_ne _ _ _ _ (fun hh => hjk hh.symm)]
      rw [hkt.1]
      rfl
    · show ((updAt (updAt db.playlist j
            (fun e => { e with play_order := tgt.play_order })) k
          (fun e => { e with play_order := cur.play_order + 1 }))[j]?).map
        (fun e => e.play_order) = some tgt.play_order
      rw [getElem?_updAt_ne _ _ _ _ hjk]
      rw [getElem?_updAt_self, hjv.1]
      rfl
  · intro i cur k tgt h1 h2 horder
    have hkt := findIdxEntry_some _ db.playlist k tgt h2
    have hmem : tgt ∈ db.playlist := List.getElem?_mem hkt.1
    have hfs := findIdxEntry_isSome_of_mem
      (fun e => e.play_order == cur.play_order + 1) db.playlist tgt hmem
      (by simpa using horder)
    obtain ⟨jv, hjv⟩ := Option.isSome_iff_exists.mp hfs
    have hjvs := findIdxEntry_some _ db.playlist jv.1 jv.2 (by simpa using hjv)
    have hjord : jv.2.play_order = cur.play_order + 1 := by simpa using hjvs.2
    simp only [queue_specific_song, h1, h2, hjv]
    have hupd1 : updAt db.playlist jv.1
        (fun e => { e with play_order := tgt.play_order }) = db.playlist := by
      apply updAt_eq_self
      intro e he
      rw [hjvs.1] at he
      have he2 := Option.some.inj he
      subst he2
      exact playOrder_upd_self jv.2 tgt.play_order (hjord.trans horder.symm)
    rw [hupd1]
    have hupd2 : updAt db.playlist k
        (fun e => { e with play_order := cur.play_order + 1 }) = db.playlist := by
      apply updAt_eq_self
      intro e he
      rw [hkt.1] at he
      have he2 := Option.some.inj he
      subst he2
      exact playOrder_upd_self tgt (cur.play_order + 1) horder
    rw [hupd2]

/-- Witness for C6: queueing track 3 while track 1 plays at position 0
of the three-track store swaps positions 1 and 2. -/
theorem c6_queue_specific_witness :
    queueSwapProp 3 dbFirstCurrent
    ∧ (queue_specific_song 3 dbFirstCurrent).1.playlist.map
        (fun e => (e.song_id, e.play_order)) = [(1, 0), (2, 2), (3, 1)] :=
  ⟨c6_queue_specific 3 dbFirstCurrent, by decide⟩

/-- Witness for the amended C4 at a concrete contiguous store. -/
theorem c4_amended_witness :
    contiguousOrders dbFirstCurrent
    ∧ contiguityPreservationProp idShuffle 4 2 dbFirstCurrent :=
  ⟨by decide, c4_amended idShuffle 4 2 dbFirstCurrent (by decide)⟩

/-! ## Claim C7 -/

theorem fetch_events_not_stream (songsOk : Bool) :
    ∀ e ∈ get_all_songs_events songsOk, (!isStreamEvent e) = true := by
  cases songsOk
  · intro e he
    have hall : (get_all_songs_events false).all (fun e => !isStreamEvent e) = true := by
      decide
    exact List.all_eq_true.mp hall e he
  · intro e he
    have hall : (get_all_songs_events true).all (fun e => !isStreamEvent e) = true := by
      decide
    exact List.all_eq_true.mp hall e he

theorem create_playlist_events_not_stream (shuffle : List String → List String)
    (songsOk : Bool) (all_songs : List String) (valid : String → Bool) :
    ∀ e ∈ (create_shuffled_playlist shuffle songsOk all_songs valid).1,
      (!isStreamEvent e) = true := by
  intro e he
  simp only [create_shuffled_playlist] at he
  split at he
  · exact fetch_events_not_stream songsOk e he
  · split at he
    · rcases List.mem_append.mp he with hm | hm
      · exact fetch_events_not_stream songsOk e hm
      · obtain ⟨u, _, rfl⟩ := List.mem_map.mp hm
        rfl
    · rcases List.mem_append.mp he with hm | hm
      · exact fetch_events_not_stream songsOk e hm
      · obtain ⟨u, _, rfl⟩ := List.mem_map.mp hm
        rfl

theorem streamPhase_no_advance (streamOk : String → Bool) :
    ∀ l : List String, (streamPhase streamOk l).countP isAdvanceEvent = 0 := by
  intro l
  induction l with
  | nil => rfl
  | cons u rest ih =>
    simp only [streamPhase]
    by_cases hu : streamOk u
    · rw [if_pos hu]; rfl
    · rw [if_neg hu]
      simp only [List.countP_cons, ih]
      rfl

/-- Counterexample for C7.  A fully successful iteration of the
streamer loop on a one-track pool: the track's playback completes,
and the iteration ends with no `/next_song` call at all — the loop
builds a fresh shuffled pool instead of advancing the Playlist
Service. -/
theorem c7_counterexample :
    stream_iteration idShuffleS true ["uA"] (fun _ => true) (fun _ => true)
      = [StreamEvent.fetchSongs, StreamEvent.validateUrl "uA" true,
         StreamEvent.streamTrack "uA" true]
    ∧ (stream_iteration idShuffleS true ["uA"] (fun _ => true)
        (fun _ => true)).countP isStreamEvent = 1
    ∧ (stream_iteration idShuffleS true ["uA"] (fun _ => true)
        (fun _ => true)).countP isAdvanceEvent = 0 := by
  refine ⟨by decide, by decide, by decide⟩

/-- Amended claim C7: in every iteration of `stream_continuously`, no
`/next_song` call ever occurs at or after the first playback event; the
only advance calls the streamer makes at all sit in the `get_all_songs`
fallback, before any streaming.  In particular no completed playback is
followed by an advance before the next iteration. -/
theorem c7_amended (shuffle : List String → List String) (songsOk : Bool)
    (all_songs : List String) (valid streamOk : String → Bool) :
    ((stream_iteration shuffle songsOk all_songs valid streamOk).dropWhile
        (fun e => !isStreamEvent e)).countP isAdvanceEvent = 0 := by
  have hpre := create_playlist_events_not_stream shuffle songsOk all_songs valid
  simp only [stream_iteration]
  split
  · rw [List.dropWhile_append]
    rw [List.dropWhile_eq_nil_iff.mpr hpre]
    rfl
  · rw [List.dropWhile_append]
    rw [List.dropWhile_eq_nil_iff.mpr hpre]
    simp only [List.isEmpty_nil, if_true]
    have hsub := List.Sublist.countP_le isAdvanceEvent
      (@List.dropWhile_sublist StreamEvent
        (streamPhase streamOk (create_shuffled_playlist shuffle songsOk all_songs valid).2)
        (fun e => !isStreamEvent e))
    have hzero := streamPhase_no_advance streamOk
      (create_shuffled_playlist shuffle songsOk all_songs valid).2
    omega

/-! ## Claim C8 -/

/-- Claim C8.  On an empty catalog (regeneration still yields zero
entries), `GET /playlist.txt` returns HTTP 200 with an empty body while
`GET /playlist` returns the 404 "Playlist is empty" error. -/
theorem c8_playlist_text_empty (shuffle : List Nat → List Nat)
    (hs : ∀ l : List Nat, (shuffle l).Perm l) :
    (get_playlist_text shuffle { songs := [], playlist := [] }).2 = some ""
    ∧ (get_current_playlist shuffle { songs := [], playlist := [] }).2 = none := by
  have h0 : shuffle ([] : List Nat) = [] := (hs []).eq_nil
  have hgen : generate_new_playlist shuffle { songs := [], playlist := [] }
      = { songs := [], playlist := [] } := by
    unfold generate_new_playlist
    simp only [List.map_nil, h0]
    rfl
  constructor
  · simp only [get_playlist_text, hgen]
    rfl
  · simp only [get_current_playlist, hgen]
    rfl

/-- Witness for C8 with the identity permutation. -/
theorem c8_playlist_text_empty_witness :
    (∀ l : List Nat, (idShuffle l).Perm l)
    ∧ ((get_playlist_text idShuffle { songs := [], playlist := [] }).2 = some ""
      ∧ (get_current_playlist idShuffle { songs := [], playlist := [] }).2 = none) :=
  ⟨fun l => List.Perm.refl l,
    c8_playlist_text_empty idShuffle (fun l => List.Perm.refl l)⟩

/-! ## Claim C9 -/

/-- Claim C9.  The title derivation keeps the file extension exactly for
source URLs whose raw path contains the segment `/Random%20mp3s/` and
strips it otherwise, then in both cases removes a leading one- or
two-digit track number, turns underscores and hyphens into spaces, and
removes the `unreleased` marker exactly when it occurs in the decoded
original filename — shown by the factorisation of `get_clean_title`
through the named phases, and exercised on real catalog URLs of both
kinds. -/
theorem c9_get_clean_title :
    (∀ p : String, get_clean_title p
      = removeUnreleasedMarker p (flattenSeparators (stripLeadingTrackNumber
          (if pyContains p "/Random%20mp3s/" then decodedFilename p
           else stripExtension (decodedFilename p)))))
    ∧ get_clean_title "https://web-assets-acwebdev.s3.amazonaws.com/Bernie%20Chiaravalle/Random%20mp3s/a%20loss%20for%20words_march5-unreleased.mp3"
        = "a loss for words march5 .mp3"
    ∧ pyContains "a loss for words march5 .mp3" ".mp3" = true
    ∧ get_clean_title "https://web-assets-acwebdev.s3.amazonaws.com/Bernie%20Chiaravalle/Driven%20By%20Desire/01%20Miss%20That%20Train%20%28Catch%20That%20Dream%29.m4a"
        = "Miss That Train (Catch That Dream)"
    ∧ pyContains "Miss That Train (Catch That Dream)" ".m4a" = false
    ∧ get_clean_title "https://web-assets-acwebdev.s3.amazonaws.com/Bernie%20Chiaravalle/Random%20mp3s/Don%27t_Make_Promise_jan13mix-unreleased.mp3"
        = "Don\x27t Make Promise jan13mix .mp3" := by
  refine ⟨fun p => rfl, ?_, ?_, ?_, ?_, ?_⟩
  · decide
  · rfl
  · decide
  · rfl
  · decide

/-! ## Claim C10 -/

theorem addSong_playlist (db : DB) (p : String) :
    (addSong db p).playlist = db.playlist := by
  unfold addSong
  split <;> rfl

theorem foldl_addSong_playlist :
    ∀ (paths : List String) (db : DB),
      (paths.foldl addSong db).playlist = db.playlist := by
  intro paths
  induction paths with
  | nil => intro db; rfl
  | cons p rest ih => intro db; rw [List.foldl_cons, ih, addSong_playlist]

theorem addSong_songs_ne (db : DB) (p : String) : (addSong db p).songs ≠ [] := by
  unfold addSong
  by_cases hc : (db.songs.find? (fun s => s.file_path == p)).isSome
  · rw [if_pos hc]
    intro hemp
    rw [hemp] at hc
    simp [List.find?_nil] at hc
  · rw [if_neg hc]
    intro hemp
    simp at hemp

theorem foldl_addSong_songs_ne :
    ∀ (paths : List String) (db : DB), db.songs ≠ [] →
      (paths.foldl addSong db).songs ≠ [] := by
  intro paths
  induction paths with
  | nil => intro db h; exact h
  | cons p rest ih =>
    intro db _
    rw [List.foldl_cons]
    exact ih _ (addSong_songs_ne db p)

theorem foldl_addSong_songs_ne_of_ne :
    ∀ (paths : List String) (db : DB), paths ≠ [] →
      (paths.foldl addSong db).songs ≠ [] := by
  intro paths db h
  cases paths with
  | nil => exact absurd rfl h
  | cons p rest =>
    rw [List.foldl_cons]
    exact foldl_addSong_songs_ne rest _ (addSong_songs_ne db p)

theorem generate_playlist_ne (sh : List Nat → List Nat)
    (hsh : ∀ l : List Nat, (sh l).Perm l) (d : DB) (hne : d.songs ≠ []) :
    (generate_new_playlist sh d).playlist ≠ [] := by
  intro hemp
  have h0 := generate_length sh d
  rw [hemp] at h0
  simp only [List.length_nil] at h0
  have h1 := (hsh (d.songs.map (fun s => s.id))).length_eq
  rw [List.length_map] at h1
  have h2 : d.songs.length = 0 := by omega
  exact hne (List.length_eq_zero.mp h2)

/-- Claim C10.  `on_startup` adds no songs when the song table is
non-empty, does not regenerate when the playlist table is non-empty,
and running it twice from any state equals running it once. -/
theorem c10_startup_idempotent (s1 s2 : List Nat → List Nat)
    (h1 : ∀ l : List Nat, (s1 l).Perm l) (db : DB) :
    on_startup s2 (on_startup s1 db) = on_startup s1 db
    ∧ (db.songs ≠ [] → (on_startup s1 db).songs = db.songs)
    ∧ (db.playlist ≠ [] → (on_startup s1 db).playlist = db.playlist) := by
  have haud : audio_files ≠ [] := by decide
  have key : ∀ d : DB,
      (on_startup s1 d).songs ≠ [] ∧ (on_startup s1 d).playlist ≠ [] := by
    intro d
    unfold on_startup
    by_cases hs0 : (d.songs.length == 0) = true
    · rw [if_pos hs0]
      by_cases hp0 : (((audio_files.foldl addSong d)).playlist.length == 0) = true
      · rw [if_pos hp0]
        constructor
        · rw [generate_songs_eq]
          exact foldl_addSong_songs_ne_of_ne audio_files d haud
        · exact generate_playlist_ne s1 h1 _
            (foldl_addSong_songs_ne_of_ne audio_files d haud)
      · rw [if_neg hp0]
        constructor
        · exact foldl_addSong_songs_ne_of_ne audio_files d haud
        · intro hemp
          apply hp0
          simp [beq_iff_eq, hemp]
    · rw [if_neg hs0]
      have hdne : d.songs ≠ [] := by
        intro hemp
        apply hs0
        simp [beq_iff_eq, hemp]
      by_cases hp0 : (d.playlist.length == 0) = true
      · rw [if_pos hp0]
        refine ⟨?_, generate_playlist_ne s1 h1 d hdne⟩
        rw [generate_songs_eq]
        exact hdne
      · rw [if_neg hp0]
        refine ⟨hdne, ?_⟩
        intro hemp
        apply hp0
        simp [beq_iff_eq, hemp]
  have hid : ∀ (sh : List Nat → List Nat) (d : DB), d.songs ≠ [] → d.playlist ≠ [] →
      on_startup sh d = d := by
    intro sh d hds hdp
    unfold on_startup
    have hc1 : ¬ ((d.songs.length == 0) = true) := by
      simp only [beq_iff_eq]
      intro hh
      exact hds (List.length_eq_zero.mp hh)
    have hc2 : ¬ ((d.playlist.length == 0) = true) := by
      simp only [beq_iff_eq]
      intro hh
      exact hdp (List.length_eq_zero.mp hh)
    rw [if_neg hc1, if_neg hc2]
  refine ⟨hid s2 (on_startup s1 db) (key db).1 (key db).2, ?_, ?_⟩
  · intro hne
    unfold on_startup
    have hc1 : ¬ ((db.songs.length == 0) = true) := by
      simp only [beq_iff_eq]
      intro hh
      exact hne (List.length_eq_zero.mp hh)
    rw [if_neg hc1]
    by_cases hp : (db.playlist.length == 0) = true
    · rw [if_pos hp, generate_songs_eq]
    · rw [if_neg hp]
  · intro hne
    unfold on_startup
    have hc2 : ¬ ((db.playlist.length == 0) = true) := by
      simp only [beq_iff_eq]
      intro hh
      exact hne (List.length_eq_zero.mp hh)
    by_cases hs0 : (db.songs.length == 0) = true
    · rw [if_pos hs0]
      have hpl := foldl_addSong_playlist audio_files db
      have hc2b : ¬ (((audio_files.foldl addSong db).playlist.length == 0) = true) := by
        rw [hpl]
        exact hc2
      rw [if_neg hc2b, hpl]
    · rw [if_neg hs0, if_neg hc2]

/-- Witness for C10 at the two-track catalog with an empty playlist and
the identity permutation. -/
theorem c10_startup_idempotent_witness :
    (∀ l : List Nat, (idShuffle l).Perm l)
    ∧ (on_startup idShuffle (on_startup idShuffle dbTwo) = on_startup idShuffle dbTwo
      ∧ (dbTwo.songs ≠ [] → (on_startup idShuffle dbTwo).songs = dbTwo.songs)
      ∧ (dbTwo.playlist ≠ [] → (on_startup idShuffle dbTwo).playlist = dbTwo.playlist)) :=
  ⟨fun l => List.Perm.refl l,
    c10_startup_idempotent idShuffle idShuffle (fun l => List.Perm.refl l) dbTwo⟩
